import Mathlib

/-!
Shallow embedding of the KTEX converter core
(`source code/shank2_ktex_v4.py`): RGB565 conversion, DXT5 alpha table,
mipmap chain builder, DXT block codec, structure detector, and the
header splice used by `rebuild`.  Bytes are `Nat` values (< 256 where it
matters); byte buffers are `List Nat`; fallible code returns
`Except String`.
-/

/-- `DXTFormat` enum: DXT1 = 0, DXT3 = 1, DXT5 = 2. -/
inductive DXTFormat where
  | DXT1
  | DXT3
  | DXT5
deriving DecidableEq, Repr

/-- `DXTFormat.block_size`: 8 bytes for DXT1, 16 for DXT3/DXT5. -/
def DXTFormat.block_size : DXTFormat → Nat
  | .DXT1 => 8
  | _ => 16

/-- `DXTFormat(data[7])`: the enum constructor accepts only 0, 1, 2 and
raises `ValueError` otherwise. -/
def DXTFormat.ofId : Nat → Option DXTFormat
  | 0 => some .DXT1
  | 1 => some .DXT3
  | 2 => some .DXT5
  | _ => none

/-- `RGB565_R[i] = (i * 255 + 15) // 31` (also `RGB565_B`). -/
def RGB565_R (i : Nat) : Nat := (i * 255 + 15) / 31

/-- `RGB565_G[i] = (i * 255 + 31) // 63`. -/
def RGB565_G (i : Nat) : Nat := (i * 255 + 31) / 63

/-- `RGB565_B[i] = (i * 255 + 15) // 31`. -/
def RGB565_B (i : Nat) : Nat := (i * 255 + 15) / 31

/-- `rgb565_to_rgb(c)`: expand a 16-bit 5-6-5 code to (r, g, b) via the
rounding expansion tables. -/
def rgb565_to_rgb (c : Nat) : Nat × Nat × Nat :=
  (RGB565_R ((c >>> 11) &&& 0x1F),
   RGB565_G ((c >>> 5) &&& 0x3F),
   RGB565_B (c &&& 0x1F))

/-- `rgb_to_rgb565(r, g, b) = ((r >> 3) << 11) | ((g >> 2) << 5) | (b >> 3)`:
truncating bit-shift packing. -/
def rgb_to_rgb565 (r g b : Nat) : Nat :=
  (((r >>> 3) <<< 11) ||| ((g >>> 2) <<< 5)) ||| (b >>> 3)

/-- `MipmapInfo` dataclass. -/
structure MipmapInfo where
  level : Nat
  width : Nat
  height : Nat
  size : Nat
  offset : Nat
deriving DecidableEq, Repr

/-- One level's byte size: `max(1,(w+3)//4) * max(1,(h+3)//4) * block_size`. -/
def levelSize (fmt : DXTFormat) (w h : Nat) : Nat :=
  (max 1 ((w + 3) / 4)) * (max 1 ((h + 3) / 4)) * fmt.block_size

/-- Loop body of `calculate_mipmap_chain`: state (w, h, level, total);
the loop runs while `w >= 1 and h >= 1`, emits a level each pass, and
breaks after emitting a level with both dimensions ≤ 4. -/
def mipChainAux (fmt : DXTFormat) (w h level total : Nat) :
    List MipmapInfo × Nat :=
  if w ≥ 1 ∧ h ≥ 1 then
    let size := levelSize fmt w h
    let mi : MipmapInfo := ⟨level, w, h, size, total⟩
    if w ≤ 4 ∧ h ≤ 4 then
      ([mi], total + size)
    else
      let rest := mipChainAux fmt (max 1 (w / 2)) (max 1 (h / 2))
        (level + 1) (total + size)
      (mi :: rest.1, rest.2)
  else
    ([], total)
termination_by w + h
decreasing_by
  rcases Nat.lt_or_ge w 5 with hw | hw
  · have hh : h ≥ 5 := by omega
    have : max 1 (h / 2) < h := by omega
    have : max 1 (w / 2) ≤ w := by omega
    omega
  · have : max 1 (w / 2) < w := by omega
    have : max 1 (h / 2) ≤ h := by omega
    omega

/-- `calculate_mipmap_chain(width, height, fmt)`. -/
def calculate_mipmap_chain (width height : Nat) (fmt : DXTFormat) :
    List MipmapInfo × Nat :=
  mipChainAux fmt width height 0 0

/-- Byte at index `i` of a buffer (in-bounds in every use below). -/
def byteAt (data : List Nat) (i : Nat) : Nat := data.getD i 0

/-- `struct.unpack('<H', data[i:i+2])`: little-endian 16-bit read. -/
def readU16LE (data : List Nat) (i : Nat) : Nat :=
  byteAt data i + 256 * byteAt data (i + 1)

/-- `struct.pack('<H', v)` for `v < 65536`: two little-endian bytes. -/
def packU16LE (v : Nat) : List Nat := [v % 256, v / 256]

/-- `b'KTEX'` as bytes. -/
def KTEX_MAGIC : List Nat := [75, 84, 69, 88]

/-- `KTEXInfo` dataclass (raw header kept as bytes). -/
structure KTEXInfo where
  version : Nat
  format : DXTFormat
  width : Nat
  height : Nat
  header_size : Nat
  has_mipmaps : Bool
  mipmap_count : Nat
  mipmaps : List MipmapInfo
  raw_header : List Nat
deriving DecidableEq, Repr

/-- `KTEXConverter._detect_structure(data)`: auto-detect the KTEX
structure.  Python's `len(data) - size` may be negative, so the two
header-length candidates are computed in `Int`. -/
def detect_structure (data : List Nat) : Except String KTEXInfo :=
  if data.length < 12 ∨ data.take 4 ≠ KTEX_MAGIC then
    .error "Invalid KTEX file"
  else
    match DXTFormat.ofId (byteAt data 7) with
    | none => .error "invalid DXTFormat id"
    | some fmt =>
      let version := byteAt data 6
      let width := readU16LE data 8
      let height := readU16LE data 10
      let single_size := levelSize fmt width height
      let chain := calculate_mipmap_chain width height fmt
      let mipmaps := chain.1
      let mip_total := chain.2
      let no_mip_header : Int := (data.length : Int) - single_size
      let mip_header : Int := (data.length : Int) - mip_total
      if 12 ≤ no_mip_header ∧ no_mip_header ≤ 64 then
        .ok ⟨version, fmt, width, height, no_mip_header.toNat, false, 1,
             [⟨0, width, height, single_size, 0⟩],
             data.take no_mip_header.toNat⟩
      else if 8 ≤ mip_header ∧ mip_header ≤ 256 then
        .ok ⟨version, fmt, width, height, mip_header.toNat, true,
             mipmaps.length, mipmaps, data.take mip_header.toNat⟩
      else if version = 1 then
        .ok ⟨version, fmt, width, height, 18, false, 1,
             [⟨0, width, height, single_size, 0⟩], data.take 18⟩
      else if version = 5 then
        .ok ⟨version, fmt, width, height, 10, true,
             mipmaps.length, mipmaps, data.take 10⟩
      else if version = 8 then
        .ok ⟨version, fmt, width, height, 88, true,
             mipmaps.length, mipmaps, data.take 88⟩
      else
        .error ("Unknown KTEX version: " ++ toString version)

/-- An RGBA pixel, as the 4-tuples PIL's `pixels[x, y]` uses. -/
structure RGBA where
  r : Nat
  g : Nat
  b : Nat
  a : Nat
deriving DecidableEq, Repr

/-- An RGB color triple `(p[0], p[1], p[2])`. -/
structure RGB where
  r : Nat
  g : Nat
  b : Nat
deriving DecidableEq, Repr

/-- `struct.unpack('<I', data[i:i+4])`. -/
def readU32LE (data : List Nat) (i : Nat) : Nat :=
  byteAt data i + 256 * byteAt data (i + 1) +
  65536 * byteAt data (i + 2) + 16777216 * byteAt data (i + 3)

/-- `struct.unpack('<Q', data[i:i+8])`. -/
def readU64LE (data : List Nat) (i : Nat) : Nat :=
  readU32LE data i + 4294967296 * readU32LE data (i + 4)

/-- `build_alpha_table(a0, a1)`: the DXT5 8-entry alpha table. -/
def build_alpha_table (a0 a1 : Nat) : List Nat :=
  if a0 > a1 then
    [a0, a1,
     (6 * a0 + 1 * a1) / 7, (5 * a0 + 2 * a1) / 7,
     (4 * a0 + 3 * a1) / 7, (3 * a0 + 4 * a1) / 7,
     (2 * a0 + 5 * a1) / 7, (1 * a0 + 6 * a1) / 7]
  else
    [a0, a1,
     (4 * a0 + 1 * a1) / 5, (3 * a0 + 2 * a1) / 5,
     (2 * a0 + 3 * a1) / 5, (1 * a0 + 4 * a1) / 5,
     0, 255]

/-- The 4-entry DXT color palette in the `c0 > c1` (opaque) case:
endpoints plus 1/3 and 2/3 interpolants, alpha 255. -/
def dxt1OpaquePalette (rgb0 rgb1 : Nat × Nat × Nat) : List RGBA :=
  [⟨rgb0.1, rgb0.2.1, rgb0.2.2, 255⟩,
   ⟨rgb1.1, rgb1.2.1, rgb1.2.2, 255⟩,
   ⟨(2 * rgb0.1 + rgb1.1) / 3, (2 * rgb0.2.1 + rgb1.2.1) / 3,
    (2 * rgb0.2.2 + rgb1.2.2) / 3, 255⟩,
   ⟨(rgb0.1 + 2 * rgb1.1) / 3, (rgb0.2.1 + 2 * rgb1.2.1) / 3,
    (rgb0.2.2 + 2 * rgb1.2.2) / 3, 255⟩]

/-- `DXTDecoder._decode_dxt1_block(block)`. -/
def _decode_dxt1_block (block : List Nat) : List RGBA :=
  let c0 := readU16LE block 0
  let c1 := readU16LE block 2
  let bits := readU32LE block 4
  let rgb0 := rgb565_to_rgb c0
  let rgb1 := rgb565_to_rgb c1
  let colors :=
    if c0 > c1 then
      dxt1OpaquePalette rgb0 rgb1
    else
      [⟨rgb0.1, rgb0.2.1, rgb0.2.2, 255⟩,
       ⟨rgb1.1, rgb1.2.1, rgb1.2.2, 255⟩,
       ⟨(rgb0.1 + rgb1.1) / 2, (rgb0.2.1 + rgb1.2.1) / 2,
        (rgb0.2.2 + rgb1.2.2) / 2, 255⟩,
       ⟨0, 0, 0, 0⟩]
  (List.range 16).map fun i => colors.getD ((bits >>> (i * 2)) &&& 0x3) ⟨0, 0, 0, 0⟩

/-- `DXTDecoder._decode_dxt3_block(block)`; the color section always
uses the 4-color interpolated palette. -/
def _decode_dxt3_block (block : List Nat) : List RGBA :=
  let alpha_bits := readU64LE block 0
  let c0 := readU16LE block 8
  let c1 := readU16LE block 10
  let color_bits := readU32LE block 12
  let rgb0 := rgb565_to_rgb c0
  let rgb1 := rgb565_to_rgb c1
  let colors := dxt1OpaquePalette rgb0 rgb1
  (List.range 16).map fun i =>
    let a := ((alpha_bits >>> (i * 4)) &&& 0xF) * 17
    let c := colors.getD ((color_bits >>> (i * 2)) &&& 0x3) ⟨0, 0, 0, 0⟩
    ⟨c.r, c.g, c.b, a⟩

/-- `DXTDecoder._decode_dxt5_block(block)`. -/
def _decode_dxt5_block (block : List Nat) : List RGBA :=
  let a0 := byteAt block 0
  let a1 := byteAt block 1
  let alpha_table := build_alpha_table a0 a1
  let alpha_bits := ((List.range 6).map fun i => byteAt block (2 + i) <<< (i * 8)).sum
  let c0 := readU16LE block 8
  let c1 := readU16LE block 10
  let color_bits := readU32LE block 12
  let rgb0 := rgb565_to_rgb c0
  let rgb1 := rgb565_to_rgb c1
  let colors := dxt1OpaquePalette rgb0 rgb1
  (List.range 16).map fun i =>
    let a_idx := (alpha_bits >>> (i * 3)) &&& 0x7
    let c := colors.getD ((color_bits >>> (i * 2)) &&& 0x3) ⟨0, 0, 0, 0⟩
    ⟨c.r, c.g, c.b, alpha_table.getD a_idx 0⟩

/-- Dispatch on format, as in `DXTDecoder.decode`'s inner branch. -/
def decodeBlock (fmt : DXTFormat) (block : List Nat) : List RGBA :=
  match fmt with
  | .DXT5 => _decode_dxt5_block block
  | .DXT3 => _decode_dxt3_block block
  | .DXT1 => _decode_dxt1_block block

/-- `pixels[px, py] = pixel`: pointwise functional update of the image. -/
def setPixel (img : Nat → Nat → RGBA) (px py : Nat) (p : RGBA) :
    Nat → Nat → RGBA :=
  fun x y => if x = px ∧ y = py then p else img x y

/-- `for i, pixel in enumerate(block_pixels): ...` — write a decoded
block's 16 pixels at block position `(bx, by)`, clipped to the image. -/
def writeBlockPixels (img : Nat → Nat → RGBA) (width height bx b_y : Nat)
    (ps : List RGBA) : Nat → Nat → RGBA :=
  ps.enum.foldl (fun acc ip =>
    let px := bx * 4 + ip.1 % 4
    let py := b_y * 4 + ip.1 / 4
    if px < width ∧ py < height then setPixel acc px py ip.2 else acc) img

/-- The block loop of `DXTDecoder.decode`, over row-major block
coordinates `(by, bx)` with a running byte offset.  Python `break`s the
inner loop when fewer than `block_size` bytes remain; since the offset
is left unchanged, that is the same as skipping every remaining block,
which is how it is modelled here. -/
def decodeBlocksGo (data : List Nat) (fmt : DXTFormat) (width height : Nat) :
    List (Nat × Nat) → Nat → (Nat → Nat → RGBA) → (Nat → Nat → RGBA)
  | [], _, img => img
  | c :: rest, offset, img =>
    if offset + fmt.block_size ≤ data.length then
      let block := (data.drop offset).take fmt.block_size
      let img' := writeBlockPixels img width height c.2 c.1 (decodeBlock fmt block)
      decodeBlocksGo data fmt width height rest (offset + fmt.block_size) img'
    else
      decodeBlocksGo data fmt width height rest offset img

/-- `DXTDecoder.decode(data, width, height, fmt)`: the image starts as
`Image.new('RGBA', ...)`, i.e. all pixels `(0, 0, 0, 0)`. -/
def DXTDecoder.decode (data : List Nat) (width height : Nat)
    (fmt : DXTFormat) : Nat → Nat → RGBA :=
  let blocks_w := max 1 ((width + 3) / 4)
  let blocks_h := max 1 ((height + 3) / 4)
  let coords := (List.range blocks_h).flatMap fun b_y =>
    (List.range blocks_w).map fun bx => (b_y, bx)
  decodeBlocksGo data fmt width height coords 0 (fun _ _ => ⟨0, 0, 0, 0⟩)

/-- The encoder's perceptual weights.  The source stores the floats
`(0.299, 0.587, 0.114)` (or `(1, 1, 1)` when perceptual weighting is
off); they are rendered here scaled by 1000 as exact integers, which
preserves the comparisons the distance drives. -/
def encoderWeights (use_perceptual : Bool) : Nat × Nat × Nat :=
  if use_perceptual then (299, 587, 114) else (1000, 1000, 1000)

/-- `DXTEncoder._color_distance`: weighted squared channel distance. -/
def _color_distance (wt : Nat × Nat × Nat) (x y : RGB) : Int :=
  (wt.1 : Int) * ((x.r : Int) - (y.r : Int)) ^ 2 +
  (wt.2.1 : Int) * ((x.g : Int) - (y.g : Int)) ^ 2 +
  (wt.2.2 : Int) * ((x.b : Int) - (y.b : Int)) ^ 2

/-- `min(range(n), key=f)`: the first index in `0..n-1` whose key is
minimal (Python's `min` keeps the earliest minimum). -/
def argminIdx (f : Nat → Int) (n : Nat) : Nat :=
  (List.range n).foldl (fun best i => if f i < f best then i else best) 0

/-- `DXTEncoder._find_endpoints(colors)`: per-channel bounding box;
`((0,0,0), (255,255,255))` on an empty list; if the corners coincide,
the minimum corner is perturbed by +1 per channel, clamped to 255. -/
def _find_endpoints (colors : List RGB) : RGB × RGB :=
  match colors with
  | [] => (⟨0, 0, 0⟩, ⟨255, 255, 255⟩)
  | c :: cs =>
    let min_c : RGB := ⟨cs.foldl (fun m x => min m x.r) c.r,
                        cs.foldl (fun m x => min m x.g) c.g,
                        cs.foldl (fun m x => min m x.b) c.b⟩
    let max_c : RGB := ⟨cs.foldl (fun m x => max m x.r) c.r,
                        cs.foldl (fun m x => max m x.g) c.g,
                        cs.foldl (fun m x => max m x.b) c.b⟩
    if max_c = min_c then
      (max_c, ⟨min 255 (max_c.r + 1), min 255 (max_c.g + 1),
               min 255 (max_c.b + 1)⟩)
    else
      (max_c, min_c)

/-- `struct.pack('<I', v)` for `v < 2^32`. -/
def packU32LE (v : Nat) : List Nat :=
  [v % 256, v / 256 % 256, v / 65536 % 256, v / 16777216 % 256]

/-- `struct.pack('<Q', v)` for `v < 2^64`. -/
def packU64LE (v : Nat) : List Nat :=
  [v % 256, v / 256 % 256, v / 65536 % 256, v / 16777216 % 256,
   v / 4294967296 % 256, v / 1099511627776 % 256,
   v / 281474976710656 % 256, v / 72057594037927936 % 256]

/-- The interpolated 4-entry encoder color table `[c0, c1, 2/3, 1/3]`. -/
def encoderColorTable (c0 c1 : RGB) : List RGB :=
  [c0, c1,
   ⟨(2 * c0.r + c1.r) / 3, (2 * c0.g + c1.g) / 3, (2 * c0.b + c1.b) / 3⟩,
   ⟨(c0.r + 2 * c1.r) / 3, (c0.g + 2 * c1.g) / 3, (c0.b + 2 * c1.b) / 3⟩]

/-- The packed 2-bit color index field: per pixel, the nearest table
entry under the weighted distance (first index on ties). -/
def encodeColorBits (wt : Nat × Nat × Nat) (colors : List RGB)
    (table : List RGB) : Nat :=
  colors.enum.foldl (fun acc ic =>
    acc ||| (argminIdx
      (fun idx => _color_distance wt ic.2 (table.getD idx ⟨0, 0, 0⟩)) 4)
      <<< (ic.1 * 2)) 0

/-- `DXTEncoder._encode_dxt1_block(pixels)`: the 8 output bytes are the
two 16-bit endpoint codes then the 32-bit index field (the source fills
a `bytearray(8)` at slices `0:2`, `2:4`, `4:8`). -/
def _encode_dxt1_block (wt : Nat × Nat × Nat) (pixels : List RGBA) :
    List Nat :=
  let colors := pixels.map fun p => RGB.mk p.r p.g p.b
  let ep := _find_endpoints colors
  let e0 := rgb_to_rgb565 ep.1.r ep.1.g ep.1.b
  let e1 := rgb_to_rgb565 ep.2.r ep.2.g ep.2.b
  let t :=
    if e0 < e1 then (e1, e0, ep.2, ep.1)
    else if e0 = e1 then (min 65535 (e0 + 1), e1, ep.1, ep.2)
    else (e0, e1, ep.1, ep.2)
  let color_bits := encodeColorBits wt colors (encoderColorTable t.2.2.1 t.2.2.2)
  packU16LE t.1 ++ packU16LE t.2.1 ++ packU32LE color_bits

/-- `DXTEncoder._encode_dxt3_block(pixels)`: 8 bytes of explicit 4-bit
alpha, then the color section (swap on `<`, no equal-endpoint bump). -/
def _encode_dxt3_block (wt : Nat × Nat × Nat) (pixels : List RGBA) :
    List Nat :=
  let alpha_bits := pixels.enum.foldl (fun acc ip =>
    acc ||| (ip.2.a / 17) <<< (ip.1 * 4)) 0
  let colors := pixels.map fun p => RGB.mk p.r p.g p.b
  let ep := _find_endpoints colors
  let e0 := rgb_to_rgb565 ep.1.r ep.1.g ep.1.b
  let e1 := rgb_to_rgb565 ep.2.r ep.2.g ep.2.b
  let t := if e0 < e1 then (e1, e0, ep.2, ep.1) else (e0, e1, ep.1, ep.2)
  let color_bits := encodeColorBits wt colors (encoderColorTable t.2.2.1 t.2.2.2)
  packU64LE alpha_bits ++ packU16LE t.1 ++ packU16LE t.2.1 ++
    packU32LE color_bits

/-- `max(list)` over a non-empty list (the encoder's alpha lists always
have 16 entries). -/
def listMaxD : List Nat → Nat
  | [] => 0
  | x :: xs => xs.foldl max x

/-- `min(list)` over a non-empty list. -/
def listMinD : List Nat → Nat
  | [] => 0
  | x :: xs => xs.foldl min x

/-- `DXTEncoder._encode_dxt5_block(pixels)`: alpha endpoints (high
endpoint nudged by +1 when uniform), 6 bytes of packed 3-bit alpha
indices, then the color section. -/
def _encode_dxt5_block (wt : Nat × Nat × Nat) (pixels : List RGBA) :
    List Nat :=
  let alphas := pixels.map RGBA.a
  let amax := listMaxD alphas
  let a1 := listMinD alphas
  let a0 := if amax = a1 then min 255 (a1 + 1) else amax
  let alpha_table := build_alpha_table a0 a1
  let alpha_bits := alphas.enum.foldl (fun acc ia =>
    acc ||| (argminIdx
      (fun idx => (((ia.2 : Int) - (alpha_table.getD idx 0 : Int)).natAbs : Int))
      8) <<< (ia.1 * 3)) 0
  let alpha_bytes := (List.range 6).map fun i => (alpha_bits >>> (i * 8)) &&& 0xFF
  let colors := pixels.map fun p => RGB.mk p.r p.g p.b
  let ep := _find_endpoints colors
  let e0 := rgb_to_rgb565 ep.1.r ep.1.g ep.1.b
  let e1 := rgb_to_rgb565 ep.2.r ep.2.g ep.2.b
  let t := if e0 < e1 then (e1, e0, ep.2, ep.1) else (e0, e1, ep.1, ep.2)
  let color_bits := encodeColorBits wt colors (encoderColorTable t.2.2.1 t.2.2.2)
  [a0, a1] ++ alpha_bytes ++ packU16LE t.1 ++ packU16LE t.2.1 ++
    packU32LE color_bits

/-- `DXTEncoder.encode(image, fmt)`: iterate blocks row-major, sample
each 4×4 block with coordinates clamped to the last row/column, and
concatenate the per-block bytes. -/
def DXTEncoder.encode (wt : Nat × Nat × Nat) (img : Nat → Nat → RGBA)
    (width height : Nat) (fmt : DXTFormat) : List Nat :=
  let blocks_w := max 1 ((width + 3) / 4)
  let blocks_h := max 1 ((height + 3) / 4)
  (List.range blocks_h).flatMap fun b_y =>
    (List.range blocks_w).flatMap fun bx =>
      let block_pixels := (List.range 4).flatMap fun py =>
        (List.range 4).map fun px =>
          img (min (bx * 4 + px) (width - 1)) (min (b_y * 4 + py) (height - 1))
      match fmt with
      | .DXT5 => _encode_dxt5_block wt block_pixels
      | .DXT3 => _encode_dxt3_block wt block_pixels
      | .DXT1 => _encode_dxt1_block wt block_pixels

/-- `bytearray` slice assignment `l[i : i+len(repl)] = repl` (the uses
below always have `i + len(repl) <= len(l)`). -/
def setSlice (l : List Nat) (i : Nat) (repl : List Nat) : List Nat :=
  l.take i ++ repl ++ l.drop (i + repl.length)

/-- `KTEXConverter.rebuild`, header-reuse path (lines 726–731): copy the
saved header bytes and overwrite `header[8:10]` and `header[10:12]` with
the image's width and height as little-endian u16. -/
def rebuildHeaderBytes (header_data : List Nat) (width height : Nat) :
    List Nat :=
  setSlice (setSlice header_data 8 (packU16LE width)) 10 (packU16LE height)

/-! ## Helper lemmas -/

lemma rgb_to_rgb565_eq_add (r g b : Nat) (hg : g < 256) (hb : b < 256) :
    rgb_to_rgb565 r g b = (r / 8) * 2048 + (g / 4) * 32 + b / 8 := by
  have er : r >>> 3 = r / 8 := by rw [Nat.shiftRight_eq_div_pow]
  have eg : g >>> 2 = g / 4 := by rw [Nat.shiftRight_eq_div_pow]
  have eb : b >>> 3 = b / 8 := by rw [Nat.shiftRight_eq_div_pow]
  have e1 : (r / 8) <<< 11 = 2 ^ 11 * (r / 8) := by
    rw [Nat.shiftLeft_eq]; ring
  have e2 : (g / 4) <<< 5 = 2 ^ 5 * (g / 4) := by
    rw [Nat.shiftLeft_eq]; ring
  have h2 : 2 ^ 5 * (g / 4) < 2 ^ 11 := by omega
  have step1 : 2 ^ 11 * (r / 8) ||| 2 ^ 5 * (g / 4)
      = 2 ^ 11 * (r / 8) + 2 ^ 5 * (g / 4) :=
    (Nat.mul_add_lt_is_or h2 (r / 8)).symm
  have hb2 : b / 8 < 2 ^ 5 := by omega
  have e3 : 2 ^ 11 * (r / 8) + 2 ^ 5 * (g / 4)
      = 2 ^ 5 * (2 ^ 6 * (r / 8) + g / 4) := by ring
  have step2 : (2 ^ 11 * (r / 8) + 2 ^ 5 * (g / 4)) ||| b / 8
      = 2 ^ 11 * (r / 8) + 2 ^ 5 * (g / 4) + b / 8 := by
    rw [e3, ← Nat.mul_add_lt_is_or hb2 (2 ^ 6 * (r / 8) + g / 4)]
  unfold rgb_to_rgb565
  rw [er, eg, eb, e1, e2, step1, step2]
  ring

lemma rgb565_roundtrip_decompose (r g b : Nat) (hr : r < 256)
    (hg : g < 256) (hb : b < 256) :
    rgb565_to_rgb (rgb_to_rgb565 r g b)
      = (RGB565_R (r / 8), RGB565_G (g / 4), RGB565_B (b / 8)) := by
  rw [rgb_to_rgb565_eq_add r g b hg hb]
  unfold rgb565_to_rgb
  have m5 : (31 : Nat) = 2 ^ 5 - 1 := by norm_num
  have m6 : (63 : Nat) = 2 ^ 6 - 1 := by norm_num
  have p11 : (2 : Nat) ^ 11 = 2048 := by norm_num
  have p5 : (2 : Nat) ^ 5 = 32 := by norm_num
  have p6 : (2 : Nat) ^ 6 = 64 := by norm_num
  have h1 : (((r / 8) * 2048 + (g / 4) * 32 + b / 8) >>> 11) &&& 31 = r / 8 := by
    rw [Nat.shiftRight_eq_div_pow, m5, Nat.and_pow_two_sub_one_eq_mod, p11, p5]
    omega
  have h2 : (((r / 8) * 2048 + (g / 4) * 32 + b / 8) >>> 5) &&& 63 = g / 4 := by
    rw [Nat.shiftRight_eq_div_pow, m6, Nat.and_pow_two_sub_one_eq_mod, p5, p6]
    omega
  have h3 : ((r / 8) * 2048 + (g / 4) * 32 + b / 8) &&& 31 = b / 8 := by
    rw [m5, Nat.and_pow_two_sub_one_eq_mod, p5]
    omega
  rw [h1, h2, h3]

set_option maxRecDepth 4096 in
lemma expandR_err :
    ∀ r < 256, RGB565_R (r / 8) ≤ r + 7 ∧ r ≤ RGB565_R (r / 8) + 7 := by
  decide

set_option maxRecDepth 4096 in
lemma expandG_err :
    ∀ g < 256, RGB565_G (g / 4) ≤ g + 3 ∧ g ≤ RGB565_G (g / 4) + 3 := by
  decide

/-! ## C3: RGB565 round-trip quantization error -/

/-- C3, counterexample: at (248, 252, 248) the round-trip through
`rgb_to_rgb565` and `rgb565_to_rgb` returns (255, 255, 255), missing
the red channel by 7 (> 4) and the green channel by 3 (> 2), because
`rgb_to_rgb565` truncates with bit-shifts and the expansion tables
round upward. -/
theorem rgb565_roundtrip_cx :
    rgb565_to_rgb (rgb_to_rgb565 248 252 248) = (255, 255, 255) ∧
    ¬ ((rgb565_to_rgb (rgb_to_rgb565 248 252 248)).1 ≤ 248 + 4) ∧
    ¬ ((rgb565_to_rgb (rgb_to_rgb565 248 252 248)).2.1 ≤ 252 + 2) := by
  decide

/-- C3, amended: `rgb_to_rgb565` is truncating bit-shift packing (the
rounding expansion tables are only used on the 565→888 side), so for
byte channels the round-trip error is at most 7 on the red and blue
channels and at most 3 on the green channel. -/
theorem rgb565_roundtrip_quantization (r g b : Nat)
    (hr : r ≤ 255) (hg : g ≤ 255) (hb : b ≤ 255) :
    ((rgb565_to_rgb (rgb_to_rgb565 r g b)).1 ≤ r + 7 ∧
     r ≤ (rgb565_to_rgb (rgb_to_rgb565 r g b)).1 + 7) ∧
    ((rgb565_to_rgb (rgb_to_rgb565 r g b)).2.1 ≤ g + 3 ∧
     g ≤ (rgb565_to_rgb (rgb_to_rgb565 r g b)).2.1 + 3) ∧
    ((rgb565_to_rgb (rgb_to_rgb565 r g b)).2.2 ≤ b + 7 ∧
     b ≤ (rgb565_to_rgb (rgb_to_rgb565 r g b)).2.2 + 7) := by
  rw [rgb565_roundtrip_decompose r g b (by omega) (by omega) (by omega)]
  exact ⟨expandR_err r (by omega), expandG_err g (by omega),
    expandR_err b (by omega)⟩

/-- C3, witness: the amended bound instantiated at (10, 20, 30). -/
theorem rgb565_roundtrip_quantization_witness :
    (rgb565_to_rgb (rgb_to_rgb565 10 20 30)).1 ≤ 10 + 7 ∧
    20 ≤ (rgb565_to_rgb (rgb_to_rgb565 10 20 30)).2.1 + 3 :=
  ⟨(rgb565_roundtrip_quantization 10 20 30 (by decide) (by decide)
      (by decide)).1.1,
   (rgb565_roundtrip_quantization 10 20 30 (by decide) (by decide)
      (by decide)).2.1.2⟩

/-! ## C6: DXT5 alpha table entries -/

/-- C6, counterexample: `build_alpha_table(255, 0)` is
`[255, 0, 218, 182, 145, 109, 72, 36]`, which is not monotonically
non-increasing in table (index) order: entry 1 = a1 = 0 is followed by
entry 2 = 218. -/
theorem build_alpha_table_order_cx :
    build_alpha_table 255 0 = [255, 0, 218, 182, 145, 109, 72, 36] ∧
    ¬ (build_alpha_table 255 0).getD 2 0 ≤ (build_alpha_table 255 0).getD 1 0 := by
  decide

/-- C6, amended: entries 0 and 1 are always a0 and a1; when a0 > a1 the
six interpolated entries 2..7 are monotonically non-increasing and lie
between a1 and a0 (so the table is non-increasing in interpolation
order a0, t2, ..., t7, a1, but not in index order, where a1 sits at
index 1); when a0 ≤ a1 entries 6 and 7 are exactly 0 and 255. -/
theorem build_alpha_table_entries (a0 a1 : Nat) :
    (build_alpha_table a0 a1).getD 0 0 = a0 ∧
    (build_alpha_table a0 a1).getD 1 0 = a1 ∧
    (a1 < a0 →
      ((build_alpha_table a0 a1).getD 2 0 ≤ a0 ∧
       (build_alpha_table a0 a1).getD 3 0 ≤ (build_alpha_table a0 a1).getD 2 0 ∧
       (build_alpha_table a0 a1).getD 4 0 ≤ (build_alpha_table a0 a1).getD 3 0 ∧
       (build_alpha_table a0 a1).getD 5 0 ≤ (build_alpha_table a0 a1).getD 4 0 ∧
       (build_alpha_table a0 a1).getD 6 0 ≤ (build_alpha_table a0 a1).getD 5 0 ∧
       (build_alpha_table a0 a1).getD 7 0 ≤ (build_alpha_table a0 a1).getD 6 0 ∧
       a1 ≤ (build_alpha_table a0 a1).getD 7 0)) ∧
    (a0 ≤ a1 →
      (build_alpha_table a0 a1).getD 6 0 = 0 ∧
      (build_alpha_table a0 a1).getD 7 0 = 255) := by
  by_cases h : a0 > a1
  · simp [build_alpha_table, h]
    omega
  · simp [build_alpha_table, h]

/-- C6, witness: the amended claim instantiated at (200, 100). -/
theorem build_alpha_table_entries_witness :
    (build_alpha_table 200 100).getD 0 0 = 200 ∧
    (build_alpha_table 200 100).getD 3 0 ≤ (build_alpha_table 200 100).getD 2 0 :=
  ⟨(build_alpha_table_entries 200 100).1,
   ((build_alpha_table_entries 200 100).2.2.1 (by decide)).2.1⟩

/-! ## C5 and C10: mipmap chain -/

/-- Structure of the `calculate_mipmap_chain` loop: starting from any
state with `w, h >= 1`, the emitted list begins with the current level,
dimensions never increase, the final level has both dimensions at most
4, and only the final level does. -/
lemma mipChainAux_props (fmt : DXTFormat) :
    ∀ (n w h level total : Nat), w + h ≤ n → 1 ≤ w → 1 ≤ h →
      ∃ rest, (mipChainAux fmt w h level total).1
          = (⟨level, w, h, levelSize fmt w h, total⟩ : MipmapInfo) :: rest ∧
        (∀ mi ∈ (mipChainAux fmt w h level total).1,
          mi.width ≤ w ∧ mi.height ≤ h) ∧
        List.Chain' (fun a b => b.width ≤ a.width ∧ b.height ≤ a.height)
          (mipChainAux fmt w h level total).1 ∧
        (∀ mi, ((mipChainAux fmt w h level total).1).getLast? = some mi →
          mi.width ≤ 4 ∧ mi.height ≤ 4) ∧
        (∀ mi ∈ ((mipChainAux fmt w h level total).1).dropLast,
          ¬(mi.width ≤ 4 ∧ mi.height ≤ 4)) := by
  intro n
  induction n with
  | zero => intro w h level total hn hw hh; omega
  | succ n ih =>
    intro w h level total hn hw hh
    rw [mipChainAux]
    simp only [if_pos (And.intro hw hh)]
    by_cases ht : w ≤ 4 ∧ h ≤ 4
    · simp only [if_pos ht]
      refine ⟨[], rfl, ?_, ?_, ?_, ?_⟩
      · intro mi hmi
        simp at hmi
        subst hmi
        exact ⟨le_refl _, le_refl _⟩
      · simp
      · intro mi hmi
        simp at hmi
        subst hmi
        exact ht
      · simp
    · simp only [if_neg ht]
      have hw' : 1 ≤ max 1 (w / 2) := le_max_left _ _
      have hh' : 1 ≤ max 1 (h / 2) := le_max_left _ _
      have hn' : max 1 (w / 2) + max 1 (h / 2) ≤ n := by omega
      obtain ⟨rest', heq, hbound, hchain, hlast, hdrop⟩ :=
        ih (max 1 (w / 2)) (max 1 (h / 2)) (level + 1)
          (total + levelSize fmt w h) hn' hw' hh'
      refine ⟨(mipChainAux fmt (max 1 (w / 2)) (max 1 (h / 2)) (level + 1)
        (total + levelSize fmt w h)).1, rfl, ?_, ?_, ?_, ?_⟩
      · intro mi hmi
        rcases List.mem_cons.mp hmi with hmi | hmi
        · subst hmi; exact ⟨le_refl _, le_refl _⟩
        · have := hbound mi hmi
          constructor
          · calc mi.width ≤ max 1 (w / 2) := this.1
              _ ≤ w := by omega
          · calc mi.height ≤ max 1 (h / 2) := this.2
              _ ≤ h := by omega
      · rw [List.chain'_cons']
        constructor
        · intro y hy
          rw [heq] at hy
          simp at hy
          subst hy
          show (1 ⊔ w / 2 ≤ w) ∧ (1 ⊔ h / 2 ≤ h)
          omega
        · exact hchain
      · intro mi hmi
        rw [heq, List.getLast?_cons_cons, ← heq] at hmi
        exact hlast mi hmi
      · intro mi hmi
        rw [heq, List.dropLast_cons₂] at hmi
        rcases List.mem_cons.mp hmi with hmi | hmi
        · subst hmi; exact ht
        · rw [← heq] at hmi
          exact hdrop mi hmi

/-- C5: for every width >= 1, height >= 1 and format the chain builder
(total by construction, so it terminates) emits a non-empty list whose
levels have non-increasing dimensions, whose last level has both
dimensions <= 4, and in which no level before the last is already
4x4-or-smaller. -/
theorem calculate_mipmap_chain_props (width height : Nat) (fmt : DXTFormat)
    (hw : 1 ≤ width) (hh : 1 ≤ height) :
    (calculate_mipmap_chain width height fmt).1 ≠ [] ∧
    List.Chain' (fun a b => b.width ≤ a.width ∧ b.height ≤ a.height)
      (calculate_mipmap_chain width height fmt).1 ∧
    (∀ mi, ((calculate_mipmap_chain width height fmt).1).getLast? = some mi →
        mi.width ≤ 4 ∧ mi.height ≤ 4) ∧
    (∀ mi ∈ ((calculate_mipmap_chain width height fmt).1).dropLast,
        ¬(mi.width ≤ 4 ∧ mi.height ≤ 4)) := by
  obtain ⟨rest, heq, _, hchain, hlast, hdrop⟩ :=
    mipChainAux_props fmt (width + height) width height 0 0 (le_refl _) hw hh
  unfold calculate_mipmap_chain
  exact ⟨by rw [heq]; simp, hchain, hlast, hdrop⟩

/-- C10: the chain is non-empty iff both dimensions are >= 1; a zero
dimension yields `([], 0)`; and a non-empty chain starts with level
index 0, the full base dimensions, and byte offset 0. -/
theorem calculate_mipmap_chain_base (width height : Nat) (fmt : DXTFormat) :
    ((calculate_mipmap_chain width height fmt).1 ≠ [] ↔ 1 ≤ width ∧ 1 ≤ height) ∧
    (width = 0 ∨ height = 0 → calculate_mipmap_chain width height fmt = ([], 0)) ∧
    (∀ mi rest, (calculate_mipmap_chain width height fmt).1 = mi :: rest →
        mi.level = 0 ∧ mi.width = width ∧ mi.height = height ∧ mi.offset = 0) := by
  unfold calculate_mipmap_chain
  rw [mipChainAux]
  by_cases hc : width ≥ 1 ∧ height ≥ 1
  · simp only [if_pos hc]
    by_cases ht : width ≤ 4 ∧ height ≤ 4
    · simp only [if_pos ht]
      refine ⟨by simp [hc], by omega, ?_⟩
      intro mi rest hmi
      simp at hmi
      rw [← hmi.1]
      exact ⟨rfl, rfl, rfl, rfl⟩
    · simp only [if_neg ht]
      refine ⟨by simp [hc], by omega, ?_⟩
      intro mi rest hmi
      simp at hmi
      rw [← hmi.1]
      exact ⟨rfl, rfl, rfl, rfl⟩
  · simp only [if_neg hc]
    refine ⟨by simp; omega, ?_, ?_⟩
    · intro h'
      trivial
    · intro mi rest hmi
      simp at hmi

/-- C5, witness: the chain properties instantiated at 16x16 DXT5. -/
theorem calculate_mipmap_chain_props_witness :
    (calculate_mipmap_chain 16 16 DXTFormat.DXT5).1 ≠ [] :=
  (calculate_mipmap_chain_props 16 16 DXTFormat.DXT5 (by decide) (by decide)).1

/-- C10, witness: the zero-dimension case instantiated at width 0. -/
theorem calculate_mipmap_chain_base_witness :
    calculate_mipmap_chain 0 7 DXTFormat.DXT1 = ([], 0) :=
  (calculate_mipmap_chain_base 0 7 DXTFormat.DXT1).2.1 (Or.inl rfl)

/-! ## C4: decode on truncated block data -/

/-- If fewer than `block_size` bytes remain, every block is skipped and
the image is returned unchanged (the Python `break` leaves the offset
unchanged, so once the check fails it fails for all later blocks). -/
lemma decodeBlocksGo_skip (data : List Nat) (fmt : DXTFormat) (w h : Nat)
    (hshort : data.length < fmt.block_size) :
    ∀ coords offset img, decodeBlocksGo data fmt w h coords offset img = img := by
  intro coords
  induction coords with
  | nil => intro offset img; rfl
  | cons c rest ih =>
    intro offset img
    rw [decodeBlocksGo, if_neg (by omega)]
    exact ih _ _

/-- C4, counterexample: decoding a 4x4 DXT1 image from a 1-byte buffer
(shorter than the 8-byte block size) does not fail; it silently returns
the freshly created image with every pixel still (0, 0, 0, 0). -/
theorem decode_short_input_cx :
    DXTDecoder.decode [0] 4 4 DXTFormat.DXT1 0 0 = ⟨0, 0, 0, 0⟩ ∧
    DXTDecoder.decode [0] 4 4 DXTFormat.DXT1 3 3 = ⟨0, 0, 0, 0⟩ := by
  decide

/-- C4, amended: for every byte slice shorter than the format's block
size, `DXTDecoder.decode` raises nothing (it is total on such inputs):
it silently skips all blocks and yields a partial result, the default
image whose pixels are all (0, 0, 0, 0). -/
theorem decode_short_input_silent (data : List Nat) (width height : Nat)
    (fmt : DXTFormat) (hshort : data.length < fmt.block_size) :
    ∀ x y, DXTDecoder.decode data width height fmt x y = ⟨0, 0, 0, 0⟩ := by
  intro x y
  unfold DXTDecoder.decode
  rw [decodeBlocksGo_skip data fmt width height hshort]

/-- C4, witness: the amended claim at a 3-byte buffer for 8x8 DXT5. -/
theorem decode_short_input_silent_witness :
    DXTDecoder.decode [1, 2, 3] 8 8 DXTFormat.DXT5 0 0 = ⟨0, 0, 0, 0⟩ :=
  decode_short_input_silent [1, 2, 3] 8 8 DXTFormat.DXT5 (by decide) 0 0

/-! ## C7: DXT1 stored endpoint ordering -/

/-- A running-minimum fold never exceeds its seed. -/
lemma foldl_min_le (l : List RGB) (f : RGB → Nat) :
    ∀ s : Nat, l.foldl (fun m x => min m (f x)) s ≤ s := by
  induction l with
  | nil => intro s; exact le_refl s
  | cons c cs ih =>
    intro s
    calc cs.foldl (fun m x => min m (f x)) (min s (f c))
        ≤ min s (f c) := ih _
      _ ≤ s := min_le_left _ _

/-- A running-maximum fold of byte values stays a byte value. -/
lemma foldl_max_le (l : List RGB) (f : RGB → Nat) :
    ∀ s : Nat, s ≤ 255 → (∀ x ∈ l, f x ≤ 255) →
      l.foldl (fun m x => max m (f x)) s ≤ 255 := by
  induction l with
  | nil => intro s hs _; exact hs
  | cons c cs ih =>
    intro s hs hl
    exact ih _ (max_le hs (hl c (List.mem_cons_self c cs)))
      (fun x hx => hl x (List.mem_cons_of_mem c hx))

/-- `_find_endpoints` keeps every channel within 0..255 when its input
colors do. -/
lemma find_endpoints_le (colors : List RGB)
    (hc : ∀ c ∈ colors, c.r ≤ 255 ∧ c.g ≤ 255 ∧ c.b ≤ 255) :
    ((_find_endpoints colors).1.r ≤ 255 ∧ (_find_endpoints colors).1.g ≤ 255 ∧
      (_find_endpoints colors).1.b ≤ 255) ∧
    ((_find_endpoints colors).2.r ≤ 255 ∧ (_find_endpoints colors).2.g ≤ 255 ∧
      (_find_endpoints colors).2.b ≤ 255) := by
  match colors with
  | [] => exact ⟨⟨by decide, by decide, by decide⟩, ⟨by decide, by decide, by decide⟩⟩
  | c :: cs =>
    have hhead := hc c (List.mem_cons_self c cs)
    have htail : ∀ x ∈ cs, x.r ≤ 255 ∧ x.g ≤ 255 ∧ x.b ≤ 255 :=
      fun x hx => hc x (List.mem_cons_of_mem c hx)
    have hmaxr : cs.foldl (fun m x => max m x.r) c.r ≤ 255 :=
      foldl_max_le cs RGB.r c.r hhead.1 (fun x hx => (htail x hx).1)
    have hmaxg : cs.foldl (fun m x => max m x.g) c.g ≤ 255 :=
      foldl_max_le cs RGB.g c.g hhead.2.1 (fun x hx => (htail x hx).2.1)
    have hmaxb : cs.foldl (fun m x => max m x.b) c.b ≤ 255 :=
      foldl_max_le cs RGB.b c.b hhead.2.2 (fun x hx => (htail x hx).2.2)
    have hminr : cs.foldl (fun m x => min m x.r) c.r ≤ 255 :=
      le_trans (foldl_min_le cs RGB.r c.r) hhead.1
    have hming : cs.foldl (fun m x => min m x.g) c.g ≤ 255 :=
      le_trans (foldl_min_le cs RGB.g c.g) hhead.2.1
    have hminb : cs.foldl (fun m x => min m x.b) c.b ≤ 255 :=
      le_trans (foldl_min_le cs RGB.b c.b) hhead.2.2
    unfold _find_endpoints
    by_cases he : (⟨cs.foldl (fun m x => max m x.r) c.r,
        cs.foldl (fun m x => max m x.g) c.g,
        cs.foldl (fun m x => max m x.b) c.b⟩ : RGB)
        = ⟨cs.foldl (fun m x => min m x.r) c.r,
           cs.foldl (fun m x => min m x.g) c.g,
           cs.foldl (fun m x => min m x.b) c.b⟩
    · simp only [if_pos he]
      exact ⟨⟨hmaxr, hmaxg, hmaxb⟩, ⟨by simp, by simp, by simp⟩⟩
    · simp only [if_neg he]
      exact ⟨⟨hmaxr, hmaxg, hmaxb⟩, ⟨hminr, hming, hminb⟩⟩

/-- A 5-6-5 code packed from byte channels is at most 65535. -/
lemma rgb_to_rgb565_le (r g b : Nat) (hr : r ≤ 255) (hg : g ≤ 255)
    (hb : b ≤ 255) : rgb_to_rgb565 r g b ≤ 65535 := by
  rw [rgb_to_rgb565_eq_add r g b (by omega) (by omega)]
  omega

/-- Reading back the first packed u16 of a DXT1 color section. -/
lemma readU16LE_pack_head (v w : Nat) (z : List Nat) :
    readU16LE (packU16LE v ++ packU16LE w ++ z) 0 = v := by
  simp only [packU16LE, List.cons_append, List.nil_append]
  show (v % 256) + 256 * (v / 256) = v
  omega

/-- Reading back the second packed u16 of a DXT1 color section. -/
lemma readU16LE_pack_snd (v w : Nat) (z : List Nat) :
    readU16LE (packU16LE v ++ packU16LE w ++ z) 2 = w := by
  simp only [packU16LE, List.cons_append, List.nil_append]
  show (w % 256) + 256 * (w / 256) = w
  omega

/-- C7, amended: for every pixel block with byte channels, the DXT1
encoder stores endpoint codes with the first strictly greater than the
second — except when both quantized endpoints are 65535, where the
clamp `min(65535, c+1)` leaves them equal (and decode then selects the
3-color mode). -/
theorem dxt1_endpoint_order (wt : Nat × Nat × Nat) (pixels : List RGBA)
    (hpx : ∀ p ∈ pixels, p.r ≤ 255 ∧ p.g ≤ 255 ∧ p.b ≤ 255) :
    readU16LE (_encode_dxt1_block wt pixels) 2
      < readU16LE (_encode_dxt1_block wt pixels) 0 ∨
    (readU16LE (_encode_dxt1_block wt pixels) 0 = 65535 ∧
     readU16LE (_encode_dxt1_block wt pixels) 2 = 65535) := by
  have hc : ∀ c ∈ pixels.map (fun p => RGB.mk p.r p.g p.b),
      c.r ≤ 255 ∧ c.g ≤ 255 ∧ c.b ≤ 255 := by
    intro c hcmem
    obtain ⟨p, hp, rfl⟩ := List.mem_map.mp hcmem
    exact hpx p hp
  have hep := find_endpoints_le _ hc
  have he0 : rgb_to_rgb565 (_find_endpoints (pixels.map (fun p => RGB.mk p.r p.g p.b))).1.r
      (_find_endpoints (pixels.map (fun p => RGB.mk p.r p.g p.b))).1.g
      (_find_endpoints (pixels.map (fun p => RGB.mk p.r p.g p.b))).1.b ≤ 65535 :=
    rgb_to_rgb565_le _ _ _ hep.1.1 hep.1.2.1 hep.1.2.2
  have he1 : rgb_to_rgb565 (_find_endpoints (pixels.map (fun p => RGB.mk p.r p.g p.b))).2.r
      (_find_endpoints (pixels.map (fun p => RGB.mk p.r p.g p.b))).2.g
      (_find_endpoints (pixels.map (fun p => RGB.mk p.r p.g p.b))).2.b ≤ 65535 :=
    rgb_to_rgb565_le _ _ _ hep.2.1 hep.2.2.1 hep.2.2.2
  simp only [_encode_dxt1_block]
  set cs := pixels.map (fun p => RGB.mk p.r p.g p.b) with hcs
  set ep := _find_endpoints cs with hepdef
  set E0 := rgb_to_rgb565 ep.1.r ep.1.g ep.1.b with hE0
  set E1 := rgb_to_rgb565 ep.2.r ep.2.g ep.2.b with hE1
  split_ifs with h1 h2
  · left
    dsimp only
    rw [readU16LE_pack_head, readU16LE_pack_snd]
    exact h1
  · dsimp only
    rw [readU16LE_pack_head, readU16LE_pack_snd]
    omega
  · left
    dsimp only
    rw [readU16LE_pack_head, readU16LE_pack_snd]
    omega

set_option maxRecDepth 8192 in
/-- C7, counterexample: a block of 16 pure-white pixels quantizes both
endpoints to 65535; the clamp cannot separate them, the stored codes
are equal, and decode's `c0 > c1` test (the opaque 4-color mode
condition) fails. -/
theorem dxt1_endpoint_order_cx :
    readU16LE (_encode_dxt1_block (encoderWeights true)
      (List.replicate 16 ⟨255, 255, 255, 255⟩)) 0 = 65535 ∧
    readU16LE (_encode_dxt1_block (encoderWeights true)
      (List.replicate 16 ⟨255, 255, 255, 255⟩)) 2 = 65535 ∧
    ¬ (readU16LE (_encode_dxt1_block (encoderWeights true)
        (List.replicate 16 ⟨255, 255, 255, 255⟩)) 2
       < readU16LE (_encode_dxt1_block (encoderWeights true)
        (List.replicate 16 ⟨255, 255, 255, 255⟩)) 0) := by
  decide

/-- C7, witness: the amended claim at a uniform (10, 20, 30) block. -/
theorem dxt1_endpoint_order_witness :
    readU16LE (_encode_dxt1_block (encoderWeights true)
      (List.replicate 16 ⟨10, 20, 30, 255⟩)) 2
      < readU16LE (_encode_dxt1_block (encoderWeights true)
      (List.replicate 16 ⟨10, 20, 30, 255⟩)) 0 ∨
    (readU16LE (_encode_dxt1_block (encoderWeights true)
      (List.replicate 16 ⟨10, 20, 30, 255⟩)) 0 = 65535 ∧
     readU16LE (_encode_dxt1_block (encoderWeights true)
      (List.replicate 16 ⟨10, 20, 30, 255⟩)) 2 = 65535) :=
  dxt1_endpoint_order (encoderWeights true) _ (by decide)

/-! ## C8: rebuild header splice -/

/-- The two slice assignments amount to replacing bytes 8-11. -/
lemma rebuildHeaderBytes_eq (hdr : List Nat) (w h : Nat)
    (hlen : 12 ≤ hdr.length) :
    rebuildHeaderBytes hdr w h
      = hdr.take 8 ++ packU16LE w ++ packU16LE h ++ hdr.drop 12 := by
  unfold rebuildHeaderBytes setSlice
  have e1 : (8 + (packU16LE w).length) = 10 := rfl
  have e2 : (10 + (packU16LE h).length) = 12 := rfl
  rw [e1, e2]
  have hlen10 : (hdr.take 8 ++ packU16LE w).length = 10 := by
    simp [packU16LE, List.length_append, List.length_take]
    omega
  rw [List.take_left' hlen10]
  have hdrop : (hdr.take 8 ++ packU16LE w ++ hdr.drop 10).drop 12
      = hdr.drop 12 := by
    have e3 : (12 : Nat) = 10 + 2 := rfl
    rw [e3, ← List.drop_drop, List.drop_left' hlen10, List.drop_drop]
  rw [hdrop]

/-- Indices below 8 read from the preserved prefix. -/
lemma byteAt_take8 (hdr : List Nat) (rest : List Nat) (i : Nat)
    (hi : i < 8) (hlen : 8 ≤ hdr.length) :
    byteAt (hdr.take 8 ++ rest) i = byteAt hdr i := by
  unfold byteAt
  have hlt : i < (hdr.take 8).length := by
    rw [List.length_take]
    omega
  rw [List.getD_append _ _ _ _ hlt, List.getD_eq_getD_get?,
    List.getD_eq_getD_get?, List.get?_take hi]

/-- Indices from 12 on read from the preserved suffix. -/
lemma byteAt_suffix12 (pre : List Nat) (hdr : List Nat) (i : Nat)
    (hpre : pre.length = 12) (hi : 12 ≤ i) :
    byteAt (pre ++ hdr.drop 12) i = byteAt hdr i := by
  unfold byteAt
  rw [List.getD_append_right _ _ _ _ (by omega), List.getD_eq_getD_get?,
    List.getD_eq_getD_get?, List.get?_drop, hpre]
  have e : 12 + (i - 12) = i := by omega
  rw [e]

/-- Bytes 8-9 of the spliced header decode to the packed width. -/
lemma readU16LE_splice8 (p : List Nat) (w h : Nat) (z : List Nat)
    (hp : p.length = 8) :
    readU16LE (p ++ packU16LE w ++ packU16LE h ++ z) 8
      = w % 256 + 256 * (w / 256) := by
  unfold readU16LE byteAt
  have l1 : (p ++ packU16LE w).length = 10 := by simp [packU16LE, hp]
  have l2 : (p ++ packU16LE w ++ packU16LE h).length = 12 := by
    simp [packU16LE, hp]
  rw [List.getD_append _ _ _ 8 (by omega), List.getD_append _ _ _ 8 (by omega),
    List.getD_append_right _ _ _ 8 (by omega),
    List.getD_append _ _ _ 9 (by omega), List.getD_append _ _ _ 9 (by omega),
    List.getD_append_right _ _ _ 9 (by omega), hp]
  norm_num [packU16LE]

/-- Bytes 10-11 of the spliced header decode to the packed height. -/
lemma readU16LE_splice10 (p : List Nat) (w h : Nat) (z : List Nat)
    (hp : p.length = 8) :
    readU16LE (p ++ packU16LE w ++ packU16LE h ++ z) 10
      = h % 256 + 256 * (h / 256) := by
  unfold readU16LE byteAt
  have l1 : (p ++ packU16LE w).length = 10 := by simp [packU16LE, hp]
  have l2 : (p ++ packU16LE w ++ packU16LE h).length = 12 := by
    simp [packU16LE, hp]
  rw [List.getD_append _ _ _ 10 (by omega),
    List.getD_append_right _ _ _ 10 (by omega),
    List.getD_append _ _ _ 11 (by omega),
    List.getD_append_right _ _ _ 11 (by omega), l1]
  norm_num [packU16LE]

/-- C8: with saved header bytes of length at least 12, the rebuilt
header keeps every byte outside 8-11 verbatim, has the same length, and
carries the image's width and height at bytes 8-9 and 10-11 as
little-endian u16 (the width/height bounds mirror `struct.pack('<H')`'s
domain). -/
theorem rebuild_header_splice (hdr : List Nat) (width height : Nat)
    (hlen : 12 ≤ hdr.length) (hw : width < 65536) (hh : height < 65536) :
    (rebuildHeaderBytes hdr width height).length = hdr.length ∧
    readU16LE (rebuildHeaderBytes hdr width height) 8 = width ∧
    readU16LE (rebuildHeaderBytes hdr width height) 10 = height ∧
    (∀ i, i < 8 ∨ 12 ≤ i →
      byteAt (rebuildHeaderBytes hdr width height) i = byteAt hdr i) := by
  rw [rebuildHeaderBytes_eq hdr width height hlen]
  have hp : (hdr.take 8).length = 8 := by
    rw [List.length_take]; omega
  refine ⟨?_, ?_, ?_, ?_⟩
  · simp [packU16LE, List.length_append, List.length_take, List.length_drop]
    omega
  · rw [readU16LE_splice8 _ _ _ _ hp]
    omega
  · rw [readU16LE_splice10 _ _ _ _ hp]
    omega
  · intro i hi
    rcases hi with hi | hi
    · rw [List.append_assoc, List.append_assoc]
      exact byteAt_take8 hdr _ i hi (by omega)
    · have hpre : (hdr.take 8 ++ packU16LE width ++ packU16LE height).length = 12 := by
        simp [packU16LE, hp]
      exact byteAt_suffix12 _ hdr i hpre hi

/-- C8, witness: the splice at a concrete 14-byte header. -/
theorem rebuild_header_splice_witness :
    readU16LE (rebuildHeaderBytes
      [75, 84, 69, 88, 0, 0, 1, 2, 9, 9, 9, 9, 7, 7] 513 258) 8 = 513 ∧
    byteAt (rebuildHeaderBytes
      [75, 84, 69, 88, 0, 0, 1, 2, 9, 9, 9, 9, 7, 7] 513 258) 12
      = byteAt [75, 84, 69, 88, 0, 0, 1, 2, 9, 9, 9, 9, 7, 7] 12 :=
  ⟨(rebuild_header_splice [75, 84, 69, 88, 0, 0, 1, 2, 9, 9, 9, 9, 7, 7]
      513 258 (by decide) (by decide) (by decide)).2.1,
   (rebuild_header_splice [75, 84, 69, 88, 0, 0, 1, 2, 9, 9, 9, 9, 7, 7]
      513 258 (by decide) (by decide) (by decide)).2.2.2 12 (Or.inr (by decide))⟩

/-! ## C9: encoder output size -/

/-- A DXT1 block always encodes to 8 bytes. -/
lemma encode_dxt1_block_length (wt : Nat × Nat × Nat) (ps : List RGBA) :
    (_encode_dxt1_block wt ps).length = 8 := by
  simp [_encode_dxt1_block, packU16LE, packU32LE, List.length_append]

/-- A DXT3 block always encodes to 16 bytes. -/
lemma encode_dxt3_block_length (wt : Nat × Nat × Nat) (ps : List RGBA) :
    (_encode_dxt3_block wt ps).length = 16 := by
  simp [_encode_dxt3_block, packU16LE, packU32LE, packU64LE, List.length_append]

/-- A DXT5 block always encodes to 16 bytes. -/
lemma encode_dxt5_block_length (wt : Nat × Nat × Nat) (ps : List RGBA) :
    (_encode_dxt5_block wt ps).length = 16 := by
  simp [_encode_dxt5_block, packU16LE, packU32LE, List.length_append,
    List.length_map, List.length_range]

/-- A flatMap whose pieces share one length multiplies it out. -/
lemma length_flatMap_const {α β : Type} (l : List α) (f : α → List β) (c : Nat)
    (hf : ∀ a ∈ l, (f a).length = c) : (l.flatMap f).length = l.length * c := by
  induction l with
  | nil => simp
  | cons x xs ih =>
    rw [List.flatMap_cons, List.length_append, hf x (List.mem_cons_self x xs),
      ih (fun a ha => hf a (List.mem_cons_of_mem x ha)), List.length_cons]
    ring

/-- C9: the encoder output length is exactly
`max(1, ceil(w/4)) * max(1, ceil(h/4)) * block_size`, which is the same
per-level size formula the mipmap chain builder (and the structure
detector's `single_size`, i.e. `levelSize`) uses — in particular it
equals level 0's recorded size. -/
theorem encode_output_length (wt : Nat × Nat × Nat) (img : Nat → Nat → RGBA)
    (width height : Nat) (fmt : DXTFormat) (hw : 1 ≤ width) (hh : 1 ≤ height) :
    (DXTEncoder.encode wt img width height fmt).length
      = (max 1 ((width + 3) / 4)) * (max 1 ((height + 3) / 4)) * fmt.block_size ∧
    (max 1 ((width + 3) / 4)) * (max 1 ((height + 3) / 4)) * fmt.block_size
      = levelSize fmt width height ∧
    (∃ mi rest, (calculate_mipmap_chain width height fmt).1 = mi :: rest ∧
      mi.size = (DXTEncoder.encode wt img width height fmt).length) := by
  have hlen : (DXTEncoder.encode wt img width height fmt).length
      = (max 1 ((width + 3) / 4)) * (max 1 ((height + 3) / 4)) * fmt.block_size := by
    unfold DXTEncoder.encode
    rw [length_flatMap_const _ _ ((max 1 ((width + 3) / 4)) * fmt.block_size) ?inner]
    · rw [List.length_range]
      ring
    case inner =>
      intro b_y _
      rw [length_flatMap_const _ _ fmt.block_size ?blk]
      · rw [List.length_range]
      case blk =>
        intro bx _
        cases fmt with
        | DXT1 => exact encode_dxt1_block_length wt _
        | DXT3 => exact encode_dxt3_block_length wt _
        | DXT5 => exact encode_dxt5_block_length wt _
  refine ⟨hlen, rfl, ?_⟩
  obtain ⟨rest, heq, -, -, -, -⟩ :=
    mipChainAux_props fmt (width + height) width height 0 0 (le_refl _) hw hh
  refine ⟨_, rest, heq, ?_⟩
  rw [hlen]
  rfl

/-- C9, witness: the length formula at a 9x5 DXT1 constant image. -/
theorem encode_output_length_witness :
    (DXTEncoder.encode (encoderWeights true) (fun _ _ => ⟨10, 20, 30, 40⟩)
      9 5 DXTFormat.DXT1).length
      = (max 1 ((9 + 3) / 4)) * (max 1 ((5 + 3) / 4))
        * DXTFormat.DXT1.block_size :=
  (encode_output_length (encoderWeights true) (fun _ _ => ⟨10, 20, 30, 40⟩)
    9 5 DXTFormat.DXT1 (by decide) (by decide)).1

/-! ## C1 and C2: structure detector -/

/-- The detector's first header-length candidate
(`no_mip_header = len(data) - single_size`), as a possibly negative
integer. -/
def no_mip_header (data : List Nat) (fmt : DXTFormat) : Int :=
  (data.length : Int) - levelSize fmt (readU16LE data 8) (readU16LE data 10)

/-- The detector's second header-length candidate
(`mip_header = len(data) - mip_total`). -/
def mip_header (data : List Nat) (fmt : DXTFormat) : Int :=
  (data.length : Int)
    - (calculate_mipmap_chain (readU16LE data 8) (readU16LE data 10) fmt).2

/-- C2, amended: a container whose `mip_header` candidate lands in the
8-256 window is classified as mipmapped with that header length (never
the version-8 fallback of 88) provided the `no_mip_header` candidate
does not land in the 12-64 window first, which takes priority. -/
theorem detect_mip_window (data : List Nat) (fmt : DXTFormat)
    (hlen : 12 ≤ data.length) (hmagic : data.take 4 = KTEX_MAGIC)
    (hfmt : DXTFormat.ofId (byteAt data 7) = some fmt)
    (hv : byteAt data 6 = 8)
    (hnA : ¬(12 ≤ no_mip_header data fmt ∧ no_mip_header data fmt ≤ 64))
    (hB : 8 ≤ mip_header data fmt ∧ mip_header data fmt ≤ 256) :
    ∃ info, detect_structure data = .ok info ∧
      (info.header_size : Int) = mip_header data fmt ∧
      info.has_mipmaps = true ∧
      info.mipmaps = (calculate_mipmap_chain (readU16LE data 8)
        (readU16LE data 10) fmt).1 := by
  unfold no_mip_header at hnA
  unfold mip_header at hB
  unfold detect_structure
  rw [if_neg (by simp [hmagic]; omega), hfmt]
  simp only
  rw [if_neg hnA, if_pos hB]
  exact ⟨_, rfl, Int.toNat_of_nonneg (by omega), rfl, rfl⟩

/-- C1: the detector resolves header length by the exact ordered
procedure: the 12-64 no-mipmap window first, then the 8-256 mipmap
window, then the version-tag fallback (1 -> 18 without mipmaps,
5 -> 10 with the full chain, 8 -> 88 with the full chain), and any
other version tag fails. -/
theorem detect_structure_procedure (data : List Nat) (fmt : DXTFormat)
    (hlen : 12 ≤ data.length) (hmagic : data.take 4 = KTEX_MAGIC)
    (hfmt : DXTFormat.ofId (byteAt data 7) = some fmt) :
    (12 ≤ no_mip_header data fmt ∧ no_mip_header data fmt ≤ 64 →
      ∃ info, detect_structure data = .ok info ∧
        (info.header_size : Int) = no_mip_header data fmt ∧
        info.has_mipmaps = false ∧ info.mipmap_count = 1 ∧
        info.mipmaps = [⟨0, readU16LE data 8, readU16LE data 10,
          levelSize fmt (readU16LE data 8) (readU16LE data 10), 0⟩]) ∧
    (¬(12 ≤ no_mip_header data fmt ∧ no_mip_header data fmt ≤ 64) →
      (8 ≤ mip_header data fmt ∧ mip_header data fmt ≤ 256) →
      ∃ info, detect_structure data = .ok info ∧
        (info.header_size : Int) = mip_header data fmt ∧
        info.has_mipmaps = true ∧
        info.mipmaps = (calculate_mipmap_chain (readU16LE data 8)
          (readU16LE data 10) fmt).1) ∧
    (¬(12 ≤ no_mip_header data fmt ∧ no_mip_header data fmt ≤ 64) →
      ¬(8 ≤ mip_header data fmt ∧ mip_header data fmt ≤ 256) →
      byteAt data 6 = 1 →
      ∃ info, detect_structure data = .ok info ∧
        info.header_size = 18 ∧ info.has_mipmaps = false ∧
        info.mipmap_count = 1) ∧
    (¬(12 ≤ no_mip_header data fmt ∧ no_mip_header data fmt ≤ 64) →
      ¬(8 ≤ mip_header data fmt ∧ mip_header data fmt ≤ 256) →
      byteAt data 6 = 5 →
      ∃ info, detect_structure data = .ok info ∧
        info.header_size = 10 ∧ info.has_mipmaps = true ∧
        info.mipmaps = (calculate_mipmap_chain (readU16LE data 8)
          (readU16LE data 10) fmt).1) ∧
    (¬(12 ≤ no_mip_header data fmt ∧ no_mip_header data fmt ≤ 64) →
      ¬(8 ≤ mip_header data fmt ∧ mip_header data fmt ≤ 256) →
      byteAt data 6 = 8 →
      ∃ info, detect_structure data = .ok info ∧
        info.header_size = 88 ∧ info.has_mipmaps = true ∧
        info.mipmaps = (calculate_mipmap_chain (readU16LE data 8)
          (readU16LE data 10) fmt).1) ∧
    (¬(12 ≤ no_mip_header data fmt ∧ no_mip_header data fmt ≤ 64) →
      ¬(8 ≤ mip_header data fmt ∧ mip_header data fmt ≤ 256) →
      byteAt data 6 ≠ 1 → byteAt data 6 ≠ 5 → byteAt data 6 ≠ 8 →
      detect_structure data
        = .error ("Unknown KTEX version: " ++ toString (byteAt data 6))) := by
  unfold detect_structure
  rw [if_neg (by simp [hmagic]; omega), hfmt]
  simp only
  refine ⟨fun hA => ?_, fun hnA hB => ?_, fun hnA hnB h1 => ?_,
    fun hnA hnB h5 => ?_, fun hnA hnB h8 => ?_, fun hnA hnB h1 h5 h8 => ?_⟩
  · unfold no_mip_header at hA
    rw [if_pos hA]
    exact ⟨_, rfl, Int.toNat_of_nonneg (by omega), rfl, rfl, rfl⟩
  · unfold no_mip_header at hnA
    unfold mip_header at hB
    rw [if_neg hnA, if_pos hB]
    exact ⟨_, rfl, Int.toNat_of_nonneg (by omega), rfl, rfl⟩
  · unfold no_mip_header at hnA
    unfold mip_header at hnB
    rw [if_neg hnA, if_neg hnB, if_pos h1]
    exact ⟨_, rfl, rfl, rfl, rfl⟩
  · unfold no_mip_header at hnA
    unfold mip_header at hnB
    rw [if_neg hnA, if_neg hnB, if_neg (by omega), if_pos h5]
    exact ⟨_, rfl, rfl, rfl, rfl⟩
  · unfold no_mip_header at hnA
    unfold mip_header at hnB
    rw [if_neg hnA, if_neg hnB, if_neg (by omega), if_neg (by omega),
      if_pos h8]
    exact ⟨_, rfl, rfl, rfl, rfl⟩
  · unfold no_mip_header at hnA
    unfold mip_header at hnB
    rw [if_neg hnA, if_neg hnB, if_neg h1, if_neg h5, if_neg h8]

/-- The mip chain of an 8x8 DXT1 texture: two levels, 40 bytes. -/
lemma chain_8_8_dxt1 : calculate_mipmap_chain 8 8 DXTFormat.DXT1
    = ([⟨0, 8, 8, 32, 0⟩, ⟨1, 4, 4, 8, 32⟩], 40) := by
  rw [calculate_mipmap_chain, mipChainAux]
  norm_num [levelSize, DXTFormat.block_size]
  rw [mipChainAux]
  norm_num [levelSize, DXTFormat.block_size]

set_option maxRecDepth 8192 in
/-- C2, counterexample: a 48-byte version-8 container for an 8x8 DXT1
texture has `mip_header = 48 - 40 = 8`, inside the 8-256 window, yet
the detector classifies it as the no-mipmap variant with header length
16, because `no_mip_header = 48 - 32 = 16` lands in the 12-64 window
that is checked first. -/
theorem detect_mip_window_cx :
    byteAt ([75, 84, 69, 88, 0, 0, 8, 0, 8, 0, 8, 0]
      ++ List.replicate 36 0) 6 = 8 ∧
    mip_header ([75, 84, 69, 88, 0, 0, 8, 0, 8, 0, 8, 0]
      ++ List.replicate 36 0) DXTFormat.DXT1 = 8 ∧
    (detect_structure ([75, 84, 69, 88, 0, 0, 8, 0, 8, 0, 8, 0]
      ++ List.replicate 36 0)).toOption.map
        (fun i => (i.has_mipmaps, i.header_size))
      = some (false, 16) := by
  refine ⟨by decide, ?_, ?_⟩
  · unfold mip_header
    rw [show readU16LE ([75, 84, 69, 88, 0, 0, 8, 0, 8, 0, 8, 0]
        ++ List.replicate 36 0) 8 = 8 from by decide,
      show readU16LE ([75, 84, 69, 88, 0, 0, 8, 0, 8, 0, 8, 0]
        ++ List.replicate 36 0) 10 = 8 from by decide,
      chain_8_8_dxt1]
    decide
  · unfold detect_structure
    rw [if_neg (by decide),
      show DXTFormat.ofId (byteAt ([75, 84, 69, 88, 0, 0, 8, 0, 8, 0, 8, 0]
        ++ List.replicate 36 0) 7) = some DXTFormat.DXT1 from by decide]
    simp only
    rw [show readU16LE ([75, 84, 69, 88, 0, 0, 8, 0, 8, 0, 8, 0]
        ++ List.replicate 36 0) 8 = 8 from by decide,
      show readU16LE ([75, 84, 69, 88, 0, 0, 8, 0, 8, 0, 8, 0]
        ++ List.replicate 36 0) 10 = 8 from by decide,
      chain_8_8_dxt1]
    decide

set_option maxRecDepth 8192 in
/-- C2, witness: a 140-byte version-8 container (no-mip candidate 108
is out of window, mip candidate 100 is in window) is classified as
mipmapped with header length 100. -/
theorem detect_mip_window_witness :
    ∃ info, detect_structure ([75, 84, 69, 88, 0, 0, 8, 0, 8, 0, 8, 0]
        ++ List.replicate 128 0) = .ok info ∧
      (info.header_size : Int)
        = mip_header ([75, 84, 69, 88, 0, 0, 8, 0, 8, 0, 8, 0]
            ++ List.replicate 128 0) DXTFormat.DXT1 ∧
      info.has_mipmaps = true ∧
      info.mipmaps = (calculate_mipmap_chain
        (readU16LE ([75, 84, 69, 88, 0, 0, 8, 0, 8, 0, 8, 0]
          ++ List.replicate 128 0) 8)
        (readU16LE ([75, 84, 69, 88, 0, 0, 8, 0, 8, 0, 8, 0]
          ++ List.replicate 128 0) 10) DXTFormat.DXT1).1 := by
  have hmh : mip_header ([75, 84, 69, 88, 0, 0, 8, 0, 8, 0, 8, 0]
      ++ List.replicate 128 0) DXTFormat.DXT1 = 100 := by
    unfold mip_header
    rw [show readU16LE ([75, 84, 69, 88, 0, 0, 8, 0, 8, 0, 8, 0]
        ++ List.replicate 128 0) 8 = 8 from by decide,
      show readU16LE ([75, 84, 69, 88, 0, 0, 8, 0, 8, 0, 8, 0]
        ++ List.replicate 128 0) 10 = 8 from by decide,
      chain_8_8_dxt1]
    decide
  exact detect_mip_window ([75, 84, 69, 88, 0, 0, 8, 0, 8, 0, 8, 0]
      ++ List.replicate 128 0) DXTFormat.DXT1
    (by decide) (by decide) (by decide) (by decide) (by decide)
    (by rw [hmh]; exact ⟨by decide, by decide⟩)

set_option maxRecDepth 8192 in
/-- C1, witness: the first branch of the procedure at a concrete
48-byte container. -/
theorem detect_structure_procedure_witness :
    ∃ info, detect_structure ([75, 84, 69, 88, 0, 0, 8, 0, 8, 0, 8, 0]
        ++ List.replicate 36 0) = .ok info ∧
      (info.header_size : Int)
        = no_mip_header ([75, 84, 69, 88, 0, 0, 8, 0, 8, 0, 8, 0]
            ++ List.replicate 36 0) DXTFormat.DXT1 ∧
      info.has_mipmaps = false ∧ info.mipmap_count = 1 ∧
      info.mipmaps = [⟨0,
        readU16LE ([75, 84, 69, 88, 0, 0, 8, 0, 8, 0, 8, 0]
          ++ List.replicate 36 0) 8,
        readU16LE ([75, 84, 69, 88, 0, 0, 8, 0, 8, 0, 8, 0]
          ++ List.replicate 36 0) 10,
        levelSize DXTFormat.DXT1
          (readU16LE ([75, 84, 69, 88, 0, 0, 8, 0, 8, 0, 8, 0]
            ++ List.replicate 36 0) 8)
          (readU16LE ([75, 84, 69, 88, 0, 0, 8, 0, 8, 0, 8, 0]
            ++ List.replicate 36 0) 10), 0⟩] :=
  (detect_structure_procedure ([75, 84, 69, 88, 0, 0, 8, 0, 8, 0, 8, 0]
      ++ List.replicate 36 0) DXTFormat.DXT1
    (by decide) (by decide) (by decide)).1 (by decide)
